import Mathlib

/-!
Verification development for the Professeur Virtuel frontend.

Strings are modelled as `List Char` (`Str`). The JavaScript string
operations used by the code (toLowerCase, trim, split on whitespace,
includes, slice, join) are embedded as executable functions on `Str`.
All definitions are translated from the TypeScript source files; the
network, Firestore and localStorage effects are passed in explicitly
(result parameters, database lists, storage records).
-/

namespace ProfVirtuel

abbrev Str := List Char

/-- JavaScript word character for the regex class backslash-w (ASCII only). -/
def isWordChar (c : Char) : Bool := c.isAlpha || c.isDigit || c == '_'

/-- JavaScript whitespace for the regex class backslash-s (common cases). -/
def isSpaceChar (c : Char) : Bool :=
  c == ' ' || c == '\t' || c == '\n' || c == '\r' || c == '\x0b' || c == '\x0c'

/-- Uppercase/lowercase pairs of the accented letters the heuristic can
distinguish; JavaScript toLowerCase/toUpperCase map them in full Unicode,
the rest of the alphabet is handled by the ASCII case functions. -/
def accentPairs : List (Char × Char) :=
  [('À', 'à'), ('Â', 'â'), ('Ä', 'ä'), ('É', 'é'), ('È', 'è'), ('Ê', 'ê'),
   ('Ë', 'ë'), ('Ï', 'ï'), ('Î', 'î'), ('Ô', 'ô'), ('Ö', 'ö'), ('Ù', 'ù'),
   ('Û', 'û'), ('Ü', 'ü'), ('Ÿ', 'ÿ'), ('Ç', 'ç')]

/-- JavaScript toLowerCase, restricted to the modelled alphabet. -/
def jsToLower (c : Char) : Char :=
  if c.isUpper then c.toLower else
  match accentPairs.find? (fun p => p.1 == c) with
  | some p => p.2
  | none => c

/-- JavaScript toUpperCase, restricted to the modelled alphabet. -/
def jsToUpper (c : Char) : Char :=
  if c.isLower then c.toUpper else
  match accentPairs.find? (fun p => p.2 == c) with
  | some p => p.1
  | none => c

/-- JavaScript String.prototype.trim. -/
def jsTrim (l : Str) : Str :=
  ((l.dropWhile isSpaceChar).reverse.dropWhile isSpaceChar).reverse

/-- Whether `needle` starts the list `hay` (helper for jsIncludes). -/
def isStartOf : Str → Str → Bool
  | [], _ => true
  | _ :: _, [] => false
  | a :: as, b :: bs => a == b && isStartOf as bs

/-- JavaScript String.prototype.includes: `needle` occurs as a contiguous
substring of `hay`. -/
def jsIncludes (hay needle : Str) : Bool :=
  match hay with
  | [] => needle.isEmpty
  | _ :: t => isStartOf needle hay || jsIncludes t needle

/-- JavaScript Array.prototype.join with a separator. -/
def jsJoin (sep : Str) : List Str → Str
  | [] => []
  | [w] => w
  | w :: ws => w ++ sep ++ jsJoin sep ws

/-- Split on each whitespace character, as the split step of
`extractTopics` (ChatArea.tsx line 59). The source splits on maximal
whitespace runs; splitting on each whitespace character differs from that
only by extra empty fields, which the later length filter removes. -/
def splitWS : List Char → List (List Char)
  | [] => [[]]
  | c :: cs =>
    let r := splitWS cs
    if isSpaceChar c then [] :: r else (c :: r.headD []) :: r.tail

/-! ## Title heuristic (src/frontend/src/components/ChatArea.tsx) -/

/-- Stop-word set of `extractTopics` (ChatArea.tsx lines 40-53). -/
def commonWords : List Str :=
  (["le", "la", "les", "un", "une", "des", "du", "de", "da", "et", "ou",
    "mais", "donc", "car", "je", "tu", "il", "elle", "nous", "vous", "ils",
    "elles", "mon", "ma", "mes", "ton", "ta", "tes", "son", "sa", "ses",
    "notre", "votre", "leur", "leurs", "ce", "cet", "cette", "ces", "sur",
    "dans", "qui", "que", "quoi", "dont", "où", "quand", "comment",
    "pourquoi", "combien", "avec", "pour", "the", "a", "an", "and", "or",
    "but", "so", "because", "if", "when", "where", "how", "why", "what",
    "i", "you", "he", "she", "it", "we", "they", "my", "your", "his",
    "her", "its", "our", "their", "this", "that", "these", "those",
    "which", "who", "whom", "whose", "can", "could", "will", "would",
    "should", "shall", "may", "might", "must", "do", "does", "did",
    "have", "has", "had", "get", "got", "is", "are", "was", "were", "be",
    "been", "being", "please", "merci", "svp", "very", "really", "just",
    "only", "also", "like", "need", "want", "know", "think", "see", "use",
    "make", "work", "good", "bad", "best", "better", "more", "most",
    "some", "any", "all", "each", "every", "other", "many", "much", "few",
    "little", "long", "short", "high", "low", "big", "small", "new",
    "old"].map String.data)

/-- Replacement of punctuation by spaces: the regex replace on
ChatArea.tsx line 57 maps every character that is neither a word
character nor whitespace to a space. -/
def cleanChar (c : Char) : Char :=
  if !isWordChar c && !isSpaceChar c then ' ' else c

/-- Letter test of the regex on ChatArea.tsx line 64 (ASCII letters plus
the listed accented letters). -/
def isTitleLetter (c : Char) : Bool :=
  c.isLower || c.isUpper || (accentPairs.map Prod.snd).contains c

/-- The word filter of `extractTopics` (ChatArea.tsx lines 61-65). -/
def wordFilter (w : Str) : Bool :=
  decide (2 < w.length) && decide (¬ w ∈ commonWords) &&
    (decide (w ≠ []) && w.all isTitleLetter)

/-- The tokenization pipeline of `extractTopics` (ChatArea.tsx lines
56-65): punctuation to spaces, digits removed, split on whitespace,
lower-cased and trimmed, then filtered. -/
def tokenize (text : Str) : List Str :=
  ((splitWS ((text.map cleanChar).filter (fun c => !c.isDigit))).map
      (fun w => jsTrim (w.map jsToLower))).filter wordFilter

/-- One step of the word-count Map of ChatArea.tsx lines 68-71: increment
the count of `w` if present, else append `(w, 1)` (JavaScript Map
iteration preserves insertion order). -/
def bump : List (Str × Nat) → Str → List (Str × Nat)
  | [], w => [(w, 1)]
  | (k, n) :: rest, w =>
    if k = w then (k, n + 1) :: rest else (k, n) :: bump rest w

/-- The word-frequency table of `extractTopics`, in insertion order. -/
def countWords (ws : List Str) : List (Str × Nat) := ws.foldl bump []

/-- Stable insertion into a list sorted descending by `key`. -/
def insertDescBy (key : α → Nat) (x : α) : List α → List α
  | [] => [x]
  | y :: ys => if key y ≤ key x then x :: y :: ys else y :: insertDescBy key x ys

/-- Stable sort descending by `key`, as the stable Array.prototype.sort
with comparator on ChatArea.tsx line 74 and the updatedAt sort of
getUserConversations. -/
def sortDescBy (key : α → Nat) (l : List α) : List α :=
  l.foldr (insertDescBy key) []

/-- `extractTopics` (ChatArea.tsx lines 38-77): tokenize, count
frequencies, sort descending by frequency, keep the first 8 words. -/
def extractTopics (text : Str) : List Str :=
  ((sortDescBy Prod.snd (countWords (tokenize text))).take 8).map Prod.fst

/-- One keyword-to-label rule of `createTitleFromTopics`. -/
structure TitleRule where
  keywords : List Str
  title : Str
deriving DecidableEq

/-- The ordered rule list of `createTitleFromTopics` (ChatArea.tsx lines
81-99). -/
def titleRules : List TitleRule :=
  [⟨["analyse", "analyze", "analysis", "étude", "analyser"].map String.data,
    "Analyse".data⟩,
   ⟨["code", "programming", "développement", "development",
     "programmer"].map String.data, "Développement".data⟩,
   ⟨["recherche", "research", "étude", "study", "chercher"].map String.data,
    "Recherche".data⟩,
   ⟨["document", "pdf", "fichier", "file", "paper", "rapport"].map String.data,
    "Document".data⟩,
   ⟨["machine learning", "ai", "intelligence artificielle", "deep learning",
     "neural"].map String.data, "IA".data⟩,
   ⟨["données", "data", "database", "base de données",
     "dataset"].map String.data, "Données".data⟩,
   ⟨["web", "site", "internet", "url", "html", "css"].map String.data,
    "Web".data⟩,
   ⟨["python", "javascript", "java", "cpp", "c++", "rust",
     "go"].map String.data, "Code".data⟩,
   ⟨["bibliothèque", "library", "framework", "outil", "tool",
     "api"].map String.data, "Outils".data⟩,
   ⟨["méthodologie", "methodology", "méthode", "method",
     "approche"].map String.data, "Méthode".data⟩,
   ⟨["explication", "explain", "expliquer", "comment",
     "pourquoi"].map String.data, "Explication".data⟩,
   ⟨["problème", "problem", "erreur", "error", "bug",
     "issue"].map String.data, "Problème".data⟩,
   ⟨["optimisation", "optimization", "amélioration", "improvement",
     "performance"].map String.data, "Optimisation".data⟩,
   ⟨["configuration", "config", "setup", "installation",
     "install"].map String.data, "Configuration".data⟩,
   ⟨["test", "testing", "debug", "debugging", "validation"].map String.data,
    "Test".data⟩,
   ⟨["sécurité", "security", "authentification", "auth",
     "encryption"].map String.data, "Sécurité".data⟩,
   ⟨["guide", "tutorial", "tutoriel", "exemple", "example"].map String.data,
    "Guide".data⟩]

/-- Words excluded from context extraction (ChatArea.tsx line 108). -/
def contextExclusions : List Str :=
  ["pour", "avec", "dans", "from", "with", "using"].map String.data

/-- JavaScript `charAt(0).toUpperCase() + slice(1)`. -/
def capitalize (w : Str) : Str :=
  match w with
  | [] => []
  | c :: rest => jsToUpper c :: rest

/-- The fallback title of the no-rule-matched case. -/
def defaultTitle : Str := "Nouvelle Conversation".data

/-- Context words accompanying a matched rule (ChatArea.tsx lines
105-109): topics that are not rule keywords, are longer than 3
characters, and are not excluded filler words; at most two. -/
def contextWordsFor (r : TitleRule) (topics : List Str) : List Str :=
  (topics.filter (fun t =>
    decide (¬ t ∈ r.keywords) && decide (3 < t.length) &&
      decide (¬ t ∈ contextExclusions))).take 2

/-- `createTitleFromTopics` (ChatArea.tsx lines 79-136). The for-loop
with early return is embedded as `find?` over the ordered rule list. -/
def createTitleFromTopics (topics : List Str) (fullText : Str) : Str :=
  match titleRules.find? (fun r => r.keywords.any (fun kw => jsIncludes fullText kw)) with
  | some r =>
    let ctx := contextWordsFor r topics
    if ctx ≠ [] then
      (r.title ++ [' '] ++ jsJoin [' '] (ctx.map capitalize)).take 25
    else r.title
  | none =>
    if 2 ≤ topics.length then
      let cleaned := ((topics.filter (fun t => decide (2 < t.length))).take 3).map capitalize
      if cleaned ≠ [] then (jsJoin [' '] cleaned).take 25 else defaultTitle
    else
      match topics with
      | [t] => if 3 < t.length then "Discussion ".data ++ capitalize t else defaultTitle
      | _ => defaultTitle

/-- Message role. -/
inductive Role
  | user
  | assistant
deriving DecidableEq

/-- Documentary source attached to an assistant message (types.ts). -/
structure Source where
  id : Int
  type : Str
  name : Str
  content : Str
deriving DecidableEq

/-- Search type tag of an assistant message (types.ts). -/
inductive SearchKind
  | document
  | web
  | none
deriving DecidableEq

/-- A chat message (types.ts ChatMessage). -/
structure ChatMsg where
  role : Role
  content : Str
  sources : Option (List Source) := Option.none
  thinking_process : Option Str := Option.none
  search_type : Option SearchKind := Option.none
  timestamp : Option Str := Option.none
  id : Option Str := Option.none
deriving DecidableEq

/-- Contents of the user messages of a list, in order. -/
def userContents (msgs : List ChatMsg) : List Str :=
  (msgs.filter (fun m => m.role == Role.user)).map ChatMsg.content

/-- The combined lower-cased user text of `generateConversationTitle`
(ChatArea.tsx line 144). -/
def allUserText (msgs : List ChatMsg) : Str :=
  (jsJoin [' '] (userContents msgs)).map jsToLower

/-- `generateConversationTitle` (ChatArea.tsx lines 138-151). -/
def generateConversationTitle (msgs : List ChatMsg) : Str :=
  if (msgs.filter (fun m => m.role == Role.user)).length = 0 then defaultTitle
  else createTitleFromTopics (extractTopics (allUserText msgs)) (allUserText msgs)

/-! ## Store state and configuration (store/context.tsx, store/index.ts) -/

/-- Model provider selection (types.ts). -/
inductive Provider
  | openrouter
  | ollama
deriving DecidableEq

/-- Health of the external services (types.ts StatusResponse). -/
structure StatusResponse where
  ollama_status : Str
  qdrant_status : Str
  web_search_status : Str
  openrouter_status : Str
  model_available : Bool
deriving DecidableEq

/-- Application configuration (types.ts AppConfig). The JavaScript number
field is modelled as a rational. -/
structure AppConfig where
  qdrant_api_key : Str
  qdrant_url : Str
  model_version : Str
  similarity_threshold : ℚ
  use_web_search : Bool
  rag_enabled : Bool
  force_web_search : Bool
  dark_mode : Bool
  openrouter_api_key : Option Str := Option.none
  openrouter_model : Option Str := Option.none
  ollama_model : Option Str := Option.none
  provider : Provider
deriving DecidableEq

/-- A TypeScript `Partial<AppConfig>` value: each field may be absent.
For the fields that are themselves optional, a present entry carries an
optional value. -/
structure ConfigUpdate where
  qdrant_api_key : Option Str := Option.none
  qdrant_url : Option Str := Option.none
  model_version : Option Str := Option.none
  similarity_threshold : Option ℚ := Option.none
  use_web_search : Option Bool := Option.none
  rag_enabled : Option Bool := Option.none
  force_web_search : Option Bool := Option.none
  dark_mode : Option Bool := Option.none
  openrouter_api_key : Option (Option Str) := Option.none
  openrouter_model : Option (Option Str) := Option.none
  ollama_model : Option (Option Str) := Option.none
  provider : Option Provider := Option.none
deriving DecidableEq

/-- The object spread `{ ...config, ...newConfig }` of `updateConfig`:
fields present in the update win, the rest keep their value. -/
def mergeConfig (c : AppConfig) (u : ConfigUpdate) : AppConfig where
  qdrant_api_key := u.qdrant_api_key.getD c.qdrant_api_key
  qdrant_url := u.qdrant_url.getD c.qdrant_url
  model_version := u.model_version.getD c.model_version
  similarity_threshold := u.similarity_threshold.getD c.similarity_threshold
  use_web_search := u.use_web_search.getD c.use_web_search
  rag_enabled := u.rag_enabled.getD c.rag_enabled
  force_web_search := u.force_web_search.getD c.force_web_search
  dark_mode := u.dark_mode.getD c.dark_mode
  openrouter_api_key := u.openrouter_api_key.getD c.openrouter_api_key
  openrouter_model := u.openrouter_model.getD c.openrouter_model
  ollama_model := u.ollama_model.getD c.ollama_model
  provider := u.provider.getD c.provider

/-- In-memory store state (store/context.tsx StoreState). -/
structure StoreState where
  config : AppConfig
  messages : List ChatMsg
  processedDocuments : List Str
  status : Option StatusResponse
  isLoading : Bool
  sidebarOpen : Bool
  currentConversationId : Option Str
  conversationsRefreshTrigger : Nat
deriving DecidableEq

/-- The localStorage entries the store mirrors (value level: the entries
hold the JSON serialization of these values). -/
structure LocalStore where
  savedConfig : Option AppConfig
  savedDocuments : Option (List Str)
  savedSidebar : Option Bool
deriving DecidableEq

/-- In-memory state together with its localStorage mirror. -/
structure Store where
  state : StoreState
  storage : LocalStore
deriving DecidableEq

/-- `updateConfig` of the store (store/context.tsx lines 105-109 and the
equivalent store/index.ts lines 47-52): merge the partial update into the
configuration and mirror the merged value to localStorage. -/
def updateConfig (s : Store) (u : ConfigUpdate) : Store :=
  let c := mergeConfig s.state.config u
  { state := { s.state with config := c },
    storage := { s.storage with savedConfig := some c } }

/-! ## Chat submission (ChatInput component, src/unnamed/part_007) -/

/-- Response of the chat API (types.ts ChatResponse). -/
structure ChatResponse where
  response : Str
  sources : Option (List Source) := Option.none
  thinking_process : Option Str := Option.none
  search_type : Option SearchKind := Option.none
deriving DecidableEq

/-- The error message appended to the chat when submission fails. -/
def assistantErrorText : Str :=
  "Désolé, j\x27ai rencontré une erreur lors du traitement de votre demande. Veuillez réessayer.".data

/-- Component state of ChatInput: the draft text of the input box
together with the store. -/
structure ChatUiState where
  draft : Str
  store : StoreState
deriving DecidableEq

/-- `handleSubmit` of ChatInput. The awaited API call is abstracted by
the `result` parameter; the toast notification is UI-only. On failure the
catch block appends an apology assistant message (it does not remove the
already-added user message). -/
def handleSubmit (st : ChatUiState) (result : Except Str ChatResponse) : ChatUiState :=
  if jsTrim st.draft = [] || st.store.isLoading then st
  else
    let userMessage := jsTrim st.draft
    let s1 : StoreState := { st.store with
      messages := st.store.messages ++ [{ role := Role.user, content := userMessage }],
      isLoading := true }
    match result with
    | .ok r =>
      { draft := [],
        store := { s1 with
          messages := s1.messages ++
            [{ role := Role.assistant, content := r.response, sources := r.sources,
               thinking_process := r.thinking_process, search_type := r.search_type }],
          isLoading := false } }
    | .error _ =>
      { draft := [],
        store := { s1 with
          messages := s1.messages ++
            [{ role := Role.assistant, content := assistantErrorText }],
          isLoading := false } }

/-! ## Auth context and Firestore wrapper (src/unnamed/part_009) -/

/-- Logged-in user (types.ts User); dates are epoch milliseconds. -/
structure User where
  id : Str
  email : Str
  firstName : Str
  lastName : Str
  displayName : Option Str := Option.none
  createdAt : Nat
deriving DecidableEq

/-- A conversation as the client sees it (types.ts Conversation). -/
structure Conversation where
  id : Str
  userId : Str
  title : Str
  messages : List ChatMsg
  createdAt : Nat
  updatedAt : Nat
  config : Option AppConfig := Option.none
deriving DecidableEq

/-- A document of the Firestore `conversations` collection. Fields that
the reading code guards with `||` or `?.` are optional here. -/
structure ConvDoc where
  docId : Str
  userId : Str
  title : Str
  messages : Option (List ChatMsg)
  createdAt : Option Nat
  updatedAt : Option Nat
  config : Option AppConfig
deriving DecidableEq

/-- The per-document conversion of `getUserConversations`:
`data.messages || []` and `createdAt?.toDate() || new Date()`; `now` is
the current time used when a timestamp is missing. -/
def toConversation (now : Nat) (d : ConvDoc) : Conversation where
  id := d.docId
  userId := d.userId
  title := d.title
  messages := d.messages.getD []
  createdAt := d.createdAt.getD now
  updatedAt := d.updatedAt.getD now
  config := d.config

/-- `getUserConversations` (part_009 lines 204-231): when no user is
logged in return the empty list, otherwise filter the collection by
owner id and sort client-side by update time, most recent first. -/
def getUserConversations (user : Option User) (db : List ConvDoc) (now : Nat) :
    List Conversation :=
  match user with
  | Option.none => []
  | some u =>
    sortDescBy (fun c => c.updatedAt)
      ((db.filter (fun d => d.userId == u.id)).map (toConversation now))

/-- The error thrown by the conversation operations without a user. -/
def noUserError : Str := "No user logged in".data

/-- Argument of saveConversation: a conversation without id, owner and
timestamps. -/
structure NewConversation where
  title : Str
  messages : List ChatMsg
  config : Option AppConfig := Option.none
deriving DecidableEq

/-- `saveConversation` (part_009 lines 233-246): rejects without a user;
otherwise adds a document with the current user as owner and server
timestamps. `newId` stands for the document id Firestore generates,
`now` for serverTimestamp. The pair returns the resulting collection and
the outcome. -/
def saveConversation (user : Option User) (db : List ConvDoc)
    (c : NewConversation) (newId : Str) (now : Nat) :
    List ConvDoc × Except Str Str :=
  match user with
  | Option.none => (db, .error noUserError)
  | some u =>
    (db ++ [{ docId := newId, userId := u.id, title := c.title,
              messages := some c.messages, createdAt := some now,
              updatedAt := some now, config := c.config }],
     .ok newId)

/-- A TypeScript `Partial<Conversation>` as the callers build it: only
title, messages and config are ever supplied. -/
structure ConvUpdate where
  title : Option Str := Option.none
  messages : Option (List ChatMsg) := Option.none
  config : Option (Option AppConfig) := Option.none
deriving DecidableEq

/-- The merge `{ ...updates, updatedAt: serverTimestamp() }` applied to a
stored document. -/
def applyConvUpdate (u : ConvUpdate) (now : Nat) (d : ConvDoc) : ConvDoc :=
  { d with title := u.title.getD d.title,
           messages := (u.messages.map some).getD d.messages,
           config := u.config.getD d.config,
           updatedAt := some now }

/-- `updateConversation` (part_009 lines 248-256): rejects without a
user; Firestore updateDoc fails when the document does not exist,
otherwise it merges the update with a fresh server timestamp. -/
def updateConversation (user : Option User) (db : List ConvDoc) (cid : Str)
    (u : ConvUpdate) (now : Nat) : List ConvDoc × Except Str Unit :=
  match user with
  | Option.none => (db, .error noUserError)
  | some _ =>
    if db.any (fun d => d.docId == cid) then
      (db.map (fun d => if d.docId == cid then applyConvUpdate u now d else d),
       .ok ())
    else (db, .error "not-found".data)

/-- `deleteConversation` (part_009 lines 258-277): rejects without a
user; otherwise removes the document. The follow-up HTTP delete against
the backend cache only warns on failure, so it does not affect the
outcome. -/
def deleteConversation (user : Option User) (db : List ConvDoc) (cid : Str) :
    List ConvDoc × Except Str Unit :=
  match user with
  | Option.none => (db, .error noUserError)
  | some _ => (db.filter (fun d => d.docId != cid), .ok ())

/-! ## Conversations list component (src/unnamed/part_005) -/

/-- Component state of ConversationsList together with the store slices
it touches. -/
structure SidebarState where
  conversations : List Conversation
  currentConversationId : Option Str
  messages : List ChatMsg
  deletingId : Option Str := Option.none
  menuOpenId : Option Str := Option.none
deriving DecidableEq

/-- `handleDeleteConversation` (part_005 lines 59-84). The confirm dialog
and the awaited delete are parameters. `deletingId` is set during the
await and reset in the finally block; only the state on exit is
modelled. On failure only a toast is shown and the finally block runs. -/
def handleDeleteConversation (st : SidebarState) (cid : Str) (confirmed : Bool)
    (result : Except Str Unit) : SidebarState :=
  if !confirmed then st
  else
    match result with
    | .error _ => { st with deletingId := Option.none, menuOpenId := Option.none }
    | .ok _ =>
      let s1 := { st with conversations := st.conversations.filter (fun c => c.id != cid) }
      let s2 := if s1.currentConversationId = some cid
                then { s1 with messages := [], currentConversationId := Option.none }
                else s1
      { s2 with deletingId := Option.none, menuOpenId := Option.none }

/-- `handleEditMessage` (ChatArea.tsx lines 189-194): copy the list and
replace the content of the message at the given index. The UI only calls
it with indexes of existing messages; for an absent index the list is
returned unchanged. -/
def handleEditMessage (msgs : List ChatMsg) (i : Nat) (newContent : Str) :
    List ChatMsg :=
  match msgs[i]? with
  | some m => msgs.set i { m with content := newContent }
  | Option.none => msgs

/-! ## Auth error translation (src/unnamed/part_000) -/

/-- A hosted-auth error object: code and message may be absent. -/
structure AuthError where
  code : Option Str := Option.none
  message : Option Str := Option.none
deriving DecidableEq

/-- The switch of `getAuthErrorMessage` as an ordered code-to-message
table (all cases are distinct, so first-match lookup is equivalent). -/
def authErrorTable : List (Str × Str) :=
  [("auth/popup-closed-by-user".data,
    "La fenêtre de connexion a été fermée. Veuillez réessayer.".data),
   ("auth/popup-blocked".data,
    "La fenêtre de connexion a été bloquée par votre navigateur. Veuillez autoriser les fenêtres contextuelles et réessayer.".data),
   ("auth/cancelled-popup-request".data,
    "Un autre processus de connexion est déjà en cours.".data),
   ("auth/account-exists-with-different-credential".data,
    "Un compte existe déjà avec la même adresse e-mail mais avec des identifiants de connexion différents. Veuillez essayer de vous connecter avec une méthode différente.".data),
   ("auth/invalid-email".data,
    "L\x27adresse e-mail n\x27est pas valide.".data),
   ("auth/user-disabled".data,
    "Ce compte utilisateur a été désactivé.".data),
   ("auth/user-not-found".data,
    "Aucun compte utilisateur trouvé avec cette adresse e-mail.".data),
   ("auth/wrong-password".data,
    "Le mot de passe est incorrect.".data),
   ("auth/email-already-in-use".data,
    "Un compte avec cette adresse e-mail existe déjà.".data),
   ("auth/weak-password".data,
    "Le mot de passe est trop faible. Veuillez choisir un mot de passe plus fort.".data),
   ("auth/network-request-failed".data,
    "Erreur réseau. Veuillez vérifier votre connexion Internet et réessayer.".data),
   ("auth/too-many-requests".data,
    "Trop de tentatives infructueuses. Veuillez réessayer plus tard.".data),
   ("auth/requires-recent-login".data,
    "Cette opération nécessite une authentification récente. Veuillez vous reconnecter.".data)]

/-- The default clause of `getAuthErrorMessage`. -/
def defaultAuthMessage : Str :=
  "Une erreur inattendue s\x27est produite. Veuillez réessayer.".data

/-- `getAuthErrorMessage` (part_000 lines 18-52): `error.code || ''`,
switch over the table, and in the default clause
`error.message || <generic message>`. -/
def getAuthErrorMessage (e : AuthError) : Str :=
  let errorCode := e.code.getD []
  match authErrorTable.find? (fun p => p.1 == errorCode) with
  | some p => p.2
  | Option.none =>
    match e.message with
    | some m => if m = [] then defaultAuthMessage else m
    | Option.none => defaultAuthMessage

/-! ## Specification-side definitions

These restate parts of the specified behaviour in the words of the
specification, to be compared with the definitions translated from the
source. -/

/-- The distinct elements of a list in order of first occurrence, with
the elements of `seen` skipped. -/
def firstOccurrencesAux [DecidableEq α] : List α → List α → List α
  | _, [] => []
  | seen, x :: xs =>
    if x ∈ seen then firstOccurrencesAux seen xs
    else x :: firstOccurrencesAux (x :: seen) xs

/-- The distinct elements of a list in order of first occurrence. -/
def firstOccurrences [DecidableEq α] (l : List α) : List α :=
  firstOccurrencesAux [] l

/-- Modelled from the spec: the ranking stage as the specification words
it — the remaining tokens ranked by descending frequency, keeping the
top 8. Frequencies are stated directly with `List.count` over the
distinct tokens in order of first occurrence. -/
def specRankedTopics (text : Str) : List Str :=
  ((sortDescBy Prod.snd ((firstOccurrences (tokenize text)).map
      (fun w => (w, (tokenize text).count w)))).take 8).map Prod.fst

/-- Modelled from the spec: the rule-matching stage as the claim words
it, with the claimed fallback — whenever ranked topics remain, the top
frequent tokens joined as a title; otherwise the default label. -/
def specCreateTitleClaimed (topics : List Str) (fullText : Str) : Str :=
  match titleRules.find? (fun r => r.keywords.any (fun kw => jsIncludes fullText kw)) with
  | some r =>
    let ctx := contextWordsFor r topics
    if ctx ≠ [] then
      (r.title ++ [' '] ++ jsJoin [' '] (ctx.map capitalize)).take 25
    else r.title
  | Option.none =>
    if topics ≠ [] then
      (jsJoin [' ']
        (((topics.filter (fun t => decide (2 < t.length))).take 3).map capitalize)).take 25
    else defaultTitle

/-- Modelled from the spec: the title pipeline with the claimed
fallback. -/
def specTitleClaimed (msgs : List ChatMsg) : Str :=
  if (userContents msgs).length = 0 then defaultTitle
  else specCreateTitleClaimed (specRankedTopics (allUserText msgs)) (allUserText msgs)

/-- Modelled from the spec: the rule-matching stage with the amended
fallback — at least two topics give the top three topics capitalized and
joined (truncated to 25 characters), exactly one topic longer than 3
characters gives the Discussion title, and anything else gives the
default label. -/
def specCreateTitleAmended (topics : List Str) (fullText : Str) : Str :=
  match titleRules.find? (fun r => r.keywords.any (fun kw => jsIncludes fullText kw)) with
  | some r =>
    let ctx := contextWordsFor r topics
    if ctx ≠ [] then
      (r.title ++ [' '] ++ jsJoin [' '] (ctx.map capitalize)).take 25
    else r.title
  | Option.none =>
    if 2 ≤ topics.length then
      let cleaned := ((topics.filter (fun t => decide (2 < t.length))).take 3).map capitalize
      if cleaned ≠ [] then (jsJoin [' '] cleaned).take 25 else defaultTitle
    else
      match topics with
      | [t] => if 3 < t.length then "Discussion ".data ++ capitalize t else defaultTitle
      | _ => defaultTitle

/-- Modelled from the spec: the amended title pipeline. -/
def specTitleAmended (msgs : List ChatMsg) : Str :=
  if (userContents msgs).length = 0 then defaultTitle
  else specCreateTitleAmended (specRankedTopics (allUserText msgs)) (allUserText msgs)

/-! ## Concrete example values for counterexamples and witnesses -/

/-- A user message whose content is `n` letters z. -/
def exZMsg (n : Nat) : ChatMsg where
  role := Role.user
  content := List.replicate n 'z'

/-- A plain example user message. -/
def exUserMsg : ChatMsg where
  role := Role.user
  content := "bonjour".data

/-- A single-word user message matching no rule keyword. -/
def exGirafeMsg : ChatMsg where
  role := Role.user
  content := "girafe".data

/-- An example assistant message. -/
def exAssistantMsg : ChatMsg where
  role := Role.assistant
  content := "réponse".data

/-- An example configuration (example values, not translated). -/
def exConfig : AppConfig where
  qdrant_api_key := []
  qdrant_url := []
  model_version := "deepseek-r1:1.5b".data
  similarity_threshold := 7 / 10
  use_web_search := false
  rag_enabled := true
  force_web_search := false
  dark_mode := false
  provider := Provider.ollama

/-- An example store state with no messages and no pending load. -/
def exStore0 : StoreState where
  config := exConfig
  messages := []
  processedDocuments := []
  status := Option.none
  isLoading := false
  sidebarOpen := true
  currentConversationId := Option.none
  conversationsRefreshTrigger := 0

/-- An example chat input state with a non-blank draft. -/
def exChatUi : ChatUiState where
  draft := "bonjour".data
  store := exStore0

/-- Example conversations for the sidebar. -/
def exConv1 : Conversation where
  id := "c1".data
  userId := "u1".data
  title := "Analyse".data
  messages := [exUserMsg]
  createdAt := 100
  updatedAt := 200

def exConv2 : Conversation where
  id := "c2".data
  userId := "u1".data
  title := "Web".data
  messages := []
  createdAt := 150
  updatedAt := 300

/-- An example sidebar state in which `exConv1` is active. -/
def exSidebar : SidebarState where
  conversations := [exConv1, exConv2]
  currentConversationId := some "c1".data
  messages := [exUserMsg]

/-- An example user. -/
def exUser : User where
  id := "u1".data
  email := "a@b.c".data
  firstName := "A".data
  lastName := "B".data
  createdAt := 50

/-- Example stored conversation documents, owned by two users. -/
def exDoc1 : ConvDoc where
  docId := "c1".data
  userId := "u1".data
  title := "Analyse".data
  messages := some [exUserMsg]
  createdAt := some 100
  updatedAt := some 200
  config := Option.none

def exDoc2 : ConvDoc where
  docId := "c2".data
  userId := "u2".data
  title := "Web".data
  messages := Option.none
  createdAt := Option.none
  updatedAt := some 300
  config := Option.none

def exDoc3 : ConvDoc where
  docId := "c3".data
  userId := "u1".data
  title := "Guide".data
  messages := some []
  createdAt := some 150
  updatedAt := some 400
  config := Option.none

/-- An example message list for editing. -/
def exMsgs : List ChatMsg := [exUserMsg, exAssistantMsg]

/-- An auth error with a code outside the table and an empty raw
message. -/
def exEmptyMsgErr : AuthError where
  code := some "auth/unknown-code".data
  message := some []

/-- An auth error with a code outside the table and a non-empty raw
message. -/
def exRawMsgErr : AuthError where
  code := some "auth/unknown-code".data
  message := some "raw failure".data

/-- An auth error with a mapped code. -/
def exMappedErr : AuthError where
  code := some "auth/wrong-password".data
  message := some "ignored".data

/-! # Helper lemmas -/

theorem getD_getD (o : Option α) (a : α) : o.getD (o.getD a) = o.getD a := by
  cases o <;> rfl

theorem mergeConfig_idem (c : AppConfig) (u : ConfigUpdate) :
    mergeConfig (mergeConfig c u) u = mergeConfig c u := by
  simp [mergeConfig, getD_getD]

theorem str_bne_eq (a b : Str) : (a != b) = decide (¬ a = b) := by
  by_cases h : a = b <;> simp [h, bne]

theorem find?_lookup_of_mem (l : List (Str × Str)) (k v : Str)
    (hmem : (k, v) ∈ l) (hnd : (l.map Prod.fst).Nodup) :
    l.find? (fun p => p.1 == k) = some (k, v) := by
  induction l with
  | nil => cases hmem
  | cons hd tl ih =>
    rcases List.mem_cons.mp hmem with h | h
    · rw [← h]
      exact List.find?_cons_of_pos _ (by simp)
    · have hk : k ∈ tl.map Prod.fst := List.mem_map_of_mem Prod.fst h
      have hne : ¬ (hd.1 == k) = true := by
        simp only [beq_iff_eq]
        intro he
        exact (List.nodup_cons.mp hnd).1 (he ▸ hk)
      have hstep : List.find? (fun p => p.1 == k) (hd :: tl)
          = List.find? (fun p => p.1 == k) tl := List.find?_cons_of_neg tl hne
      rw [hstep]
      exact ih h (List.nodup_cons.mp hnd).2

theorem insertDescBy_perm (key : α → Nat) (x : α) (l : List α) :
    (insertDescBy key x l).Perm (x :: l) := by
  induction l with
  | nil => exact List.Perm.refl _
  | cons y ys ih =>
    by_cases h : key y ≤ key x
    · simp [insertDescBy, h]
    · simp only [insertDescBy, if_neg h]
      exact (ih.cons y).trans (List.Perm.swap x y ys)

theorem sortDescBy_perm (key : α → Nat) (l : List α) :
    (sortDescBy key l).Perm l := by
  induction l with
  | nil => exact List.Perm.refl _
  | cons x xs ih =>
    exact (insertDescBy_perm key x (sortDescBy key xs)).trans (ih.cons x)

theorem mem_insertDescBy {key : α → Nat} {x y : α} {l : List α} :
    y ∈ insertDescBy key x l ↔ y = x ∨ y ∈ l := by
  rw [(insertDescBy_perm key x l).mem_iff, List.mem_cons]

theorem pairwise_insertDescBy (key : α → Nat) (x : α) (l : List α)
    (h : l.Pairwise (fun a b => key b ≤ key a)) :
    (insertDescBy key x l).Pairwise (fun a b => key b ≤ key a) := by
  induction l with
  | nil => simp [insertDescBy]
  | cons y ys ih =>
    rcases List.pairwise_cons.mp h with ⟨hy, hys⟩
    by_cases hle : key y ≤ key x
    · simp only [insertDescBy, if_pos hle]
      refine List.pairwise_cons.mpr ⟨?_, h⟩
      intro b hb
      rcases List.mem_cons.mp hb with rfl | hb
      · exact hle
      · exact le_trans (hy b hb) hle
    · simp only [insertDescBy, if_neg hle]
      refine List.pairwise_cons.mpr ⟨?_, ih hys⟩
      intro b hb
      rcases mem_insertDescBy.mp hb with rfl | hb
      · exact le_of_not_le hle
      · exact hy b hb

theorem pairwise_sortDescBy (key : α → Nat) (l : List α) :
    (sortDescBy key l).Pairwise (fun a b => key b ≤ key a) := by
  induction l with
  | nil => simp [sortDescBy]
  | cons x xs ih => exact pairwise_insertDescBy key x _ ih

theorem splitWS_ne_nil (l : List Char) : splitWS l ≠ [] := by
  cases l with
  | nil => simp [splitWS]
  | cons c cs => by_cases h : isSpaceChar c <;> simp [splitWS, h]

theorem headD_mem {l : List α} (h : l ≠ []) (d : α) : l.headD d ∈ l := by
  cases l with
  | nil => exact absurd rfl h
  | cons x xs => simp [List.headD]

theorem mem_splitWS_length {l w : List Char} (hw : w ∈ splitWS l) :
    w.length ≤ l.length := by
  induction l generalizing w with
  | nil =>
    simp [splitWS] at hw
    simp [hw]
  | cons c cs ih =>
    by_cases h : isSpaceChar c
    · rw [show splitWS (c :: cs) = [] :: splitWS cs by simp [splitWS, h]] at hw
      rcases List.mem_cons.mp hw with rfl | hw
      · simp
      · exact le_trans (ih hw) (by simp)
    · rw [show splitWS (c :: cs)
          = (c :: (splitWS cs).headD []) :: (splitWS cs).tail by simp [splitWS, h]] at hw
      rcases List.mem_cons.mp hw with rfl | hw
      · have hh : (splitWS cs).headD [] ∈ splitWS cs := headD_mem (splitWS_ne_nil cs) []
        have := ih hh
        simp only [List.length_cons]
        omega
      · have hmem : w ∈ splitWS cs := List.mem_of_mem_tail hw
        exact le_trans (ih hmem) (by simp)

theorem dropWhile_length_le (p : Char → Bool) (l : List Char) :
    (l.dropWhile p).length ≤ l.length := by
  induction l with
  | nil => simp
  | cons c cs ih =>
    by_cases h : p c
    · rw [List.dropWhile_cons, if_pos h]
      exact le_trans ih (by simp)
    · rw [List.dropWhile_cons, if_neg h]

theorem jsTrim_length (l : List Char) : (jsTrim l).length ≤ l.length := by
  unfold jsTrim
  rw [List.length_reverse]
  refine le_trans (dropWhile_length_le _ _) ?_
  rw [List.length_reverse]
  exact dropWhile_length_le _ _

theorem mem_tokenize_length {text t : Str} (ht : t ∈ tokenize text) :
    t.length ≤ text.length := by
  have ht2 := (List.mem_filter.mp ht).1
  rcases List.mem_map.mp ht2 with ⟨w, hw, rfl⟩
  have h1 : (jsTrim (w.map jsToLower)).length ≤ w.length := by
    refine le_trans (jsTrim_length _) ?_
    simp
  have h2 : w.length ≤ ((text.map cleanChar).filter (fun c => !c.isDigit)).length :=
    mem_splitWS_length hw
  have h3 : ((text.map cleanChar).filter (fun c => !c.isDigit)).length ≤ text.length := by
    refine le_trans (List.length_filter_le _ _) ?_
    simp
  omega

theorem mem_bump {acc : List (Str × Nat)} {w k : Str} {n : Nat}
    (h : (k, n) ∈ bump acc w) : k = w ∨ ∃ m, (k, m) ∈ acc := by
  induction acc with
  | nil =>
    simp [bump] at h
    exact Or.inl h.1
  | cons hd tl ih =>
    obtain ⟨k0, n0⟩ := hd
    by_cases he : k0 = w
    · rw [show bump ((k0, n0) :: tl) w = (k0, n0 + 1) :: tl by simp [bump, he]] at h
      rcases List.mem_cons.mp h with h | h
      · exact Or.inl (by rw [(Prod.mk.injEq _ _ _ _).mp h |>.1, he])
      · exact Or.inr ⟨n, List.mem_cons_of_mem _ h⟩
    · rw [show bump ((k0, n0) :: tl) w = (k0, n0) :: bump tl w by simp [bump, he]] at h
      rcases List.mem_cons.mp h with h | h
      · exact Or.inr ⟨n0, by rw [(Prod.mk.injEq _ _ _ _).mp h |>.1]; exact List.mem_cons_self _ _⟩
      · rcases ih h with h | ⟨m, hm⟩
        · exact Or.inl h
        · exact Or.inr ⟨m, List.mem_cons_of_mem _ hm⟩

theorem mem_countWords {ws : List Str} {k : Str} {n : Nat}
    (h : (k, n) ∈ countWords ws) : k ∈ ws := by
  suffices H : ∀ acc : List (Str × Nat),
      (k, n) ∈ ws.foldl bump acc → (∃ m, (k, m) ∈ acc) ∨ k ∈ ws by
    rcases H [] h with ⟨m, hm⟩ | h2
    · cases hm
    · exact h2
  clear h
  induction ws with
  | nil => exact fun acc h => Or.inl ⟨n, h⟩
  | cons w rest ih =>
    intro acc h
    rcases ih (bump acc w) h with ⟨m, hm⟩ | h2
    · rcases mem_bump hm with rfl | ⟨m2, hm2⟩
      · exact Or.inr (List.mem_cons_self _ _)
      · exact Or.inl ⟨m2, hm2⟩
    · exact Or.inr (List.mem_cons_of_mem _ h2)

theorem mem_extractTopics {text t : Str} (h : t ∈ extractTopics text) :
    t ∈ tokenize text := by
  simp only [extractTopics] at h
  rcases List.mem_map.mp h with ⟨⟨k, n⟩, hk, rfl⟩
  have h2 : (k, n) ∈ sortDescBy Prod.snd (countWords (tokenize text)) :=
    List.take_subset _ _ hk
  exact mem_countWords ((sortDescBy_perm _ _).subset h2)

theorem mem_extractTopics_length {text t : Str} (h : t ∈ extractTopics text) :
    t.length ≤ text.length :=
  mem_tokenize_length (mem_extractTopics h)

theorem capitalize_length (w : Str) : (capitalize w).length = w.length := by
  cases w <;> simp [capitalize]

theorem capitalize_ne_nil {w : Str} (h : w ≠ []) : capitalize w ≠ [] := by
  cases w with
  | nil => exact absurd rfl h
  | cons c r => simp [capitalize]

theorem jsJoin_cons_ex (sep w : Str) (ws : List Str) :
    ∃ rest, jsJoin sep (w :: ws) = w ++ rest := by
  cases ws with
  | nil => exact ⟨[], by simp [jsJoin]⟩
  | cons y ys => exact ⟨sep ++ jsJoin sep (y :: ys), by simp [jsJoin]⟩

theorem append_ne_nil_left {a b : Str} (h : a ≠ []) : a ++ b ≠ [] := by
  cases a with
  | nil => exact absurd rfl h
  | cons c r => simp

theorem take25_ne_nil {l : Str} (h : l ≠ []) : l.take 25 ≠ [] := by
  cases l with
  | nil => exact absurd rfl h
  | cons c r => simp

theorem length_take25_le (l : Str) : (l.take 25).length ≤ 25 := by
  rw [List.length_take]
  exact min_le_left _ _

theorem titleRules_facts : ∀ r ∈ titleRules, r.title ≠ [] ∧ r.title.length ≤ 25 := by
  decide

theorem createTitleFromTopics_cases (topics : List Str) (fullText : Str) :
    createTitleFromTopics topics fullText ≠ [] ∧
    ((createTitleFromTopics topics fullText).length ≤ 25 ∨
      ∃ t, topics = [t] ∧ 3 < t.length ∧
        createTitleFromTopics topics fullText = "Discussion ".data ++ capitalize t) := by
  unfold createTitleFromTopics
  cases hf : titleRules.find?
      (fun r => r.keywords.any (fun kw => jsIncludes fullText kw)) with
  | some r =>
    have hr := titleRules_facts r (List.mem_of_find?_eq_some hf)
    by_cases hctx : contextWordsFor r topics = []
    · simp only [hctx, ne_eq, not_true_eq_false, if_false]
      exact ⟨hr.1, Or.inl hr.2⟩
    · simp only [ne_eq, hctx, not_false_eq_true, if_true]
      refine ⟨take25_ne_nil (append_ne_nil_left (append_ne_nil_left hr.1)), ?_⟩
      exact Or.inl (length_take25_le _)
  | none =>
    by_cases h2 : 2 ≤ topics.length
    · simp only [if_pos h2]
      by_cases hcl :
          ((topics.filter (fun t => decide (2 < t.length))).take 3).map capitalize = []
      · simp only [hcl, ne_eq, not_true_eq_false, if_false]
        exact ⟨by decide, Or.inl (by decide)⟩
      · simp only [ne_eq, hcl, not_false_eq_true, if_true]
        refine ⟨?_, Or.inl (length_take25_le _)⟩
        cases hc : ((topics.filter (fun t => decide (2 < t.length))).take 3).map capitalize with
        | nil => exact absurd hc hcl
        | cons c cs =>
          have hcmem : c ∈ ((topics.filter (fun t => decide (2 < t.length))).take 3).map capitalize := by
            rw [hc]; exact List.mem_cons_self _ _
          rcases List.mem_map.mp hcmem with ⟨t, htm, rfl⟩
          have htf := (List.mem_filter.mp (List.take_subset _ _ htm)).2
          have htl : 2 < t.length := of_decide_eq_true htf
          have htne : t ≠ [] := by
            intro he
            rw [he] at htl
            simp at htl
          rcases jsJoin_cons_ex [' '] (capitalize t) cs with ⟨rest, hrest⟩
          rw [hrest]
          exact take25_ne_nil (append_ne_nil_left (capitalize_ne_nil htne))
    · simp only [if_neg h2]
      cases topics with
      | nil => exact ⟨show defaultTitle ≠ [] by decide, Or.inl (show defaultTitle.length ≤ 25 by decide)⟩
      | cons t ts =>
        cases ts with
        | nil =>
          by_cases h3 : 3 < t.length
          · simp only [if_pos h3]
            refine ⟨append_ne_nil_left (by decide), ?_⟩
            exact Or.inr ⟨t, rfl, h3, rfl⟩
          · simp only [if_neg h3]
            exact ⟨show defaultTitle ≠ [] by decide, Or.inl (show defaultTitle.length ≤ 25 by decide)⟩
        | cons t2 ts2 =>
          exact ⟨show defaultTitle ≠ [] by decide, Or.inl (show defaultTitle.length ≤ 25 by decide)⟩


theorem jsToLower_z : jsToLower 'z' = 'z' := by decide

theorem filter_replicate_pos {p : Char → Bool} {a : Char} (h : p a = true) (n : Nat) :
    (List.replicate n a).filter p = List.replicate n a := by
  induction n with
  | zero => rfl
  | succ k ih => simp [List.replicate_succ, List.filter_cons, h, ih]

theorem dropWhile_no (p : Char → Bool) {l : Str} (h : ∀ c ∈ l, p c = false) :
    l.dropWhile p = l := by
  cases l with
  | nil => rfl
  | cons c cs => simp [List.dropWhile_cons, h c (List.mem_cons_self _ _)]

theorem jsTrim_no_space {l : Str} (h : ∀ c ∈ l, isSpaceChar c = false) :
    jsTrim l = l := by
  unfold jsTrim
  rw [dropWhile_no _ h]
  rw [dropWhile_no _ (fun c hc => h c (List.mem_reverse.mp hc))]
  exact List.reverse_reverse l

theorem splitWS_no_space {l : Str} (h : ∀ c ∈ l, isSpaceChar c = false) :
    splitWS l = [l] := by
  induction l with
  | nil => rfl
  | cons c cs ih =>
    have hc : isSpaceChar c = false := h c (List.mem_cons_self _ _)
    have ihh := ih (fun x hx => h x (List.mem_cons_of_mem _ hx))
    simp [splitWS, hc, ihh]

set_option maxRecDepth 4000 in
theorem commonWords_no_z : ∀ w ∈ commonWords, ¬ 'z' ∈ w := by decide

theorem titleRules_keywords_non_z :
    ∀ r ∈ titleRules, ∀ kw ∈ r.keywords, ∃ c ∈ kw, ¬ c = 'z' := by decide

theorem isStartOf_subset {needle hay : Str} (h : isStartOf needle hay = true) :
    ∀ c ∈ needle, c ∈ hay := by
  induction needle generalizing hay with
  | nil => exact fun c hc => absurd hc (List.not_mem_nil c)
  | cons a as ih =>
    cases hay with
    | nil => simp [isStartOf] at h
    | cons b bs =>
      simp only [isStartOf, Bool.and_eq_true, beq_iff_eq] at h
      obtain ⟨rfl, h2⟩ := h
      intro c hc
      rcases List.mem_cons.mp hc with rfl | hc
      · exact List.mem_cons_self _ _
      · exact List.mem_cons_of_mem _ (ih h2 c hc)

theorem jsIncludes_subset {hay needle : Str} (h : jsIncludes hay needle = true) :
    ∀ c ∈ needle, c ∈ hay := by
  induction hay with
  | nil =>
    simp only [jsIncludes, List.isEmpty_iff] at h
    subst h
    exact fun c hc => absurd hc (List.not_mem_nil c)
  | cons b bs ih =>
    simp only [jsIncludes, Bool.or_eq_true] at h
    rcases h with h | h
    · exact isStartOf_subset h
    · exact fun c hc => List.mem_cons_of_mem _ (ih h c hc)

theorem userText_z (n : Nat) : allUserText [exZMsg n] = List.replicate n 'z' := by
  simp [allUserText, userContents, exZMsg, jsJoin, List.map_replicate, jsToLower_z]

theorem tokenize_z {n : Nat} (hn : 3 ≤ n) :
    tokenize (List.replicate n 'z') = [List.replicate n 'z'] := by
  have e1 : (List.replicate n 'z').map cleanChar = List.replicate n 'z' := by
    rw [List.map_replicate, show cleanChar 'z' = 'z' from by decide]
  have e2 : (List.replicate n 'z').filter (fun c => !c.isDigit) = List.replicate n 'z' :=
    filter_replicate_pos (by decide) n
  have e3 : splitWS (List.replicate n 'z') = [List.replicate n 'z'] :=
    splitWS_no_space (fun c hc => by rw [List.eq_of_mem_replicate hc]; decide)
  have e4 : (List.replicate n 'z').map jsToLower = List.replicate n 'z' := by
    rw [List.map_replicate, jsToLower_z]
  have e5 : jsTrim (List.replicate n 'z') = List.replicate n 'z' :=
    jsTrim_no_space (fun c hc => by rw [List.eq_of_mem_replicate hc]; decide)
  have e6 : wordFilter (List.replicate n 'z') = true := by
    unfold wordFilter
    simp only [Bool.and_eq_true, decide_eq_true_eq]
    refine ⟨⟨?_, ?_⟩, ?_, ?_⟩
    · rw [List.length_replicate]
      omega
    · intro hmem
      exact commonWords_no_z _ hmem (List.mem_replicate.mpr ⟨by omega, rfl⟩)
    · intro he
      have hl := congrArg List.length he
      rw [List.length_replicate] at hl
      simp at hl
      omega
    · rw [List.all_eq_true]
      intro x hx
      rw [List.eq_of_mem_replicate hx]
      decide
  unfold tokenize
  rw [e1, e2, e3]
  simp [e4, e5, e6, List.filter_cons]

theorem extractTopics_z {n : Nat} (hn : 3 ≤ n) :
    extractTopics (List.replicate n 'z') = [List.replicate n 'z'] := by
  unfold extractTopics
  rw [tokenize_z hn]
  rfl

theorem jsIncludes_z_keywords (n : Nat) :
    ∀ r ∈ titleRules, ∀ kw ∈ r.keywords,
      jsIncludes (List.replicate n 'z') kw = false := by
  intro r hr kw hkw
  rcases titleRules_keywords_non_z r hr kw hkw with ⟨c, hc, hcz⟩
  cases h : jsIncludes (List.replicate n 'z') kw with
  | false => rfl
  | true =>
    have := jsIncludes_subset h c hc
    exact absurd (List.eq_of_mem_replicate this) hcz

theorem createTitle_z {n : Nat} (hn : 4 ≤ n) :
    createTitleFromTopics [List.replicate n 'z'] (List.replicate n 'z')
      = "Discussion ".data ++ capitalize (List.replicate n 'z') := by
  have hfind : titleRules.find?
      (fun r => r.keywords.any (fun kw => jsIncludes (List.replicate n 'z') kw))
        = Option.none := by
    rw [List.find?_eq_none]
    intro r hr
    rw [Bool.not_eq_true, List.any_eq_false]
    intro kw hkw
    rw [jsIncludes_z_keywords n r hr kw hkw]
    exact Bool.false_ne_true
  simp only [createTitleFromTopics, hfind]
  have hlen : ¬ 2 ≤ ([List.replicate n 'z'] : List Str).length := by simp
  rw [if_neg hlen]
  rw [if_pos (by rw [List.length_replicate]; omega)]

theorem title_z {n : Nat} (hn : 4 ≤ n) :
    generateConversationTitle [exZMsg n]
      = "Discussion ".data ++ capitalize (List.replicate n 'z') := by
  unfold generateConversationTitle
  rw [if_neg (by simp [exZMsg])]
  rw [userText_z, extractTopics_z (by omega), createTitle_z hn]

/-! # Claim theorems -/

/-- C3: applying `updateConfig` twice with the same partial update
yields the same store state (and localStorage mirror) as applying it
once. -/
theorem updateConfig_idempotent (s : Store) (u : ConfigUpdate) :
    updateConfig (updateConfig s u) u = updateConfig s u := by
  simp [updateConfig, mergeConfig_idem]

/-- C10: without a logged-in user, saveConversation, updateConversation
and deleteConversation reject with the "No user logged in" error and
leave the collection unchanged, and getUserConversations returns the
empty list. -/
theorem no_user_guards :
    (∀ db c newId now,
        saveConversation Option.none db c newId now = (db, Except.error noUserError)) ∧
    (∀ db cid u now,
        updateConversation Option.none db cid u now = (db, Except.error noUserError)) ∧
    (∀ db cid, deleteConversation Option.none db cid = (db, Except.error noUserError)) ∧
    (∀ db now, getUserConversations Option.none db now = []) :=
  ⟨fun _ _ _ _ => rfl, fun _ _ _ _ => rfl, fun _ _ => rfl, fun _ _ => rfl⟩

/-- C2 counterexample: a failed chat submission does not leave the
message list as it was before the submission — the user message and an
apology assistant message have been appended. -/
theorem submit_failure_changes_messages_cex :
    (handleSubmit exChatUi (Except.error "boom".data)).store.messages ≠
      exChatUi.store.messages := by decide

/-- C2 (amended): a failed conversation deletion leaves the conversation
list, the active conversation id and the message list unchanged; a
failed chat submission keeps the prior messages as a prefix but appends
the trimmed user message and an apology assistant message, and resets
the loading flag. -/
theorem failure_state_spec :
    (∀ st cid confirmed e,
        (handleDeleteConversation st cid confirmed (Except.error e)).conversations
            = st.conversations ∧
        (handleDeleteConversation st cid confirmed (Except.error e)).currentConversationId
            = st.currentConversationId ∧
        (handleDeleteConversation st cid confirmed (Except.error e)).messages
            = st.messages) ∧
    (∀ st e, jsTrim st.draft ≠ [] → st.store.isLoading = false →
        (handleSubmit st (Except.error e)).store.messages
          = st.store.messages ++
              [{ role := Role.user, content := jsTrim st.draft },
               { role := Role.assistant, content := assistantErrorText }] ∧
        (handleSubmit st (Except.error e)).store.isLoading = false) := by
  constructor
  · intro st cid confirmed e
    by_cases h : confirmed <;> simp [handleDeleteConversation, h]
  · intro st e h hL
    simp [handleSubmit, h, hL]

theorem failure_state_spec_w :
    ((handleDeleteConversation exSidebar "c1".data true (Except.error "x".data)).conversations
        = exSidebar.conversations) ∧
    ((handleSubmit exChatUi (Except.error "x".data)).store.messages
        = exChatUi.store.messages ++
            [{ role := Role.user, content := jsTrim exChatUi.draft },
             { role := Role.assistant, content := assistantErrorText }]) :=
  ⟨(failure_state_spec.1 exSidebar "c1".data true "x".data).1,
   (failure_state_spec.2 exChatUi "x".data (by decide) rfl).1⟩

/-- C4: a successful deletion removes the conversation with the given id
from the in-memory list, and when it was the active conversation the
message list is cleared and the active conversation id becomes null. -/
theorem handleDeleteConversation_ok_spec (st : SidebarState) (cid : Str) :
    (handleDeleteConversation st cid true (Except.ok ())).conversations
        = st.conversations.filter (fun c => decide (¬ c.id = cid)) ∧
    (st.currentConversationId = some cid →
      (handleDeleteConversation st cid true (Except.ok ())).messages = [] ∧
      (handleDeleteConversation st cid true (Except.ok ())).currentConversationId
        = Option.none) := by
  by_cases h : st.currentConversationId = some cid <;>
    simp [handleDeleteConversation, str_bne_eq, h]

theorem handleDeleteConversation_ok_spec_w :
    (handleDeleteConversation exSidebar "c1".data true (Except.ok ())).messages = [] ∧
    (handleDeleteConversation exSidebar "c1".data true (Except.ok ())).currentConversationId
      = Option.none :=
  (handleDeleteConversation_ok_spec exSidebar "c1".data).2 rfl

/-- C9: editing the message at index i replaces only the content of that
message — its other fields, every other message and the list length are
unchanged. -/
theorem handleEditMessage_frame (msgs : List ChatMsg) (i : Nat) (nc : Str)
    (h : i < msgs.length) :
    (handleEditMessage msgs i nc).length = msgs.length ∧
    (∀ m, msgs[i]? = some m →
        (handleEditMessage msgs i nc)[i]? = some { m with content := nc }) ∧
    (∀ j, ¬ j = i → (handleEditMessage msgs i nc)[j]? = msgs[j]?) := by
  have hs : msgs[i]? = some msgs[i] := List.getElem?_eq_getElem h
  refine ⟨?_, ?_, ?_⟩
  · simp [handleEditMessage, hs]
  · intro m hm
    rw [hs] at hm
    cases hm
    simp [handleEditMessage, hs, List.getElem?_set_self, h]
  · intro j hj
    simp [handleEditMessage, hs, List.getElem?_set_ne (fun he => hj he.symm)]

theorem handleEditMessage_frame_w :
    (handleEditMessage exMsgs 0 "salut".data).length = exMsgs.length ∧
    (handleEditMessage exMsgs 0 "salut".data)[1]? = exMsgs[1]? :=
  ⟨(handleEditMessage_frame exMsgs 0 "salut".data (by decide)).1,
   (handleEditMessage_frame exMsgs 0 "salut".data (by decide)).2.2 1 (by decide)⟩

/-- C6 counterexample: an error whose code is not in the table but whose
raw message is empty is not answered with the raw message (the generic
default message is returned instead). -/
theorem auth_error_raw_message_cex :
    (¬ exEmptyMsgErr.code.getD [] ∈ authErrorTable.map Prod.fst) ∧
    getAuthErrorMessage exEmptyMsgErr ≠ exEmptyMsgErr.message.getD [] := by
  exact ⟨by decide, by decide⟩

/-- C6 (amended): errors with a mapped code get the fixed French message
of the table; errors with an unmapped code get the raw message when it
is non-empty, and the generic default message otherwise. -/
theorem getAuthErrorMessage_spec :
    (∀ (e : AuthError) (code msg : Str), e.code = some code →
        (code, msg) ∈ authErrorTable → getAuthErrorMessage e = msg) ∧
    (∀ e : AuthError, ¬ e.code.getD [] ∈ authErrorTable.map Prod.fst →
        getAuthErrorMessage e =
          if e.message.getD [] = [] then defaultAuthMessage else e.message.getD []) := by
  constructor
  · intro e code msg hc hm
    have hnd : (authErrorTable.map Prod.fst).Nodup := by decide
    simp [getAuthErrorMessage, hc, find?_lookup_of_mem _ _ _ hm hnd]
  · intro e hm
    have hnone : authErrorTable.find? (fun p => p.1 == e.code.getD []) = Option.none := by
      apply List.find?_eq_none.mpr
      intro p hp
      simp only [beq_iff_eq]
      intro he
      exact hm (he ▸ List.mem_map_of_mem Prod.fst hp)
    cases hmsg : e.message with
    | none => simp [getAuthErrorMessage, hnone, hmsg]
    | some m =>
      by_cases hm2 : m = [] <;> simp [getAuthErrorMessage, hnone, hmsg, hm2]

theorem getAuthErrorMessage_spec_w :
    getAuthErrorMessage exMappedErr = "Le mot de passe est incorrect.".data ∧
    getAuthErrorMessage exRawMsgErr = "raw failure".data := by
  constructor
  · exact getAuthErrorMessage_spec.1 exMappedErr "auth/wrong-password".data
      "Le mot de passe est incorrect.".data rfl (by decide)
  · rw [getAuthErrorMessage_spec.2 exRawMsgErr (by decide)]
    decide

/-- C7: getUserConversations returns only conversations owned by the
logged-in user, sorted client-side by update time in descending order,
and consists exactly of the owner-filtered documents. -/
theorem getUserConversations_spec (u : User) (db : List ConvDoc) (now : Nat) :
    (∀ c ∈ getUserConversations (some u) db now, c.userId = u.id) ∧
    (getUserConversations (some u) db now).Pairwise
      (fun a b => b.updatedAt ≤ a.updatedAt) ∧
    (getUserConversations (some u) db now).Perm
      ((db.filter (fun d => d.userId == u.id)).map (toConversation now)) := by
  simp only [getUserConversations]
  refine ⟨?_, ?_, ?_⟩
  · intro c hc
    have hc2 : c ∈ (db.filter (fun d => d.userId == u.id)).map (toConversation now) :=
      (sortDescBy_perm (fun c => c.updatedAt) _).subset hc
    rcases List.mem_map.mp hc2 with ⟨d, hd, rfl⟩
    have hid : d.userId = u.id := by
      have := (List.mem_filter.mp hd).2
      simpa using this
    simpa [toConversation] using hid
  · exact pairwise_sortDescBy _ _
  · exact sortDescBy_perm _ _

theorem getUserConversations_spec_w :
    toConversation 500 exDoc3 ∈ getUserConversations (some exUser) [exDoc1, exDoc2, exDoc3] 500 ∧
    (toConversation 500 exDoc3).userId = exUser.id :=
  ⟨by decide,
   (getUserConversations_spec exUser [exDoc1, exDoc2, exDoc3] 500).1 _ (by decide)⟩

/-- C8: the title generation is deterministic and stateless — it depends
only on the ordered contents of the user messages, so two runs on inputs
with the same user contents produce the same title. -/
theorem title_deterministic_stateless (m1 m2 : List ChatMsg)
    (h : userContents m1 = userContents m2) :
    generateConversationTitle m1 = generateConversationTitle m2 := by
  have hl : (m1.filter (fun m => m.role == Role.user)).length
      = (m2.filter (fun m => m.role == Role.user)).length := by
    have hc := congrArg List.length h
    simpa [userContents] using hc
  have ht : allUserText m1 = allUserText m2 := by simp [allUserText, h]
  unfold generateConversationTitle
  rw [hl, ht]

theorem title_deterministic_stateless_w :
    userContents [exUserMsg] = userContents [exUserMsg, exAssistantMsg] ∧
    generateConversationTitle [exUserMsg]
      = generateConversationTitle [exUserMsg, exAssistantMsg] :=
  ⟨by decide, title_deterministic_stateless _ _ (by decide)⟩

/-- C1 counterexample: there is no uniform bound on the length of the
generated title over non-empty inputs — a single user message of n
letters z yields a title of length n + 11 through the Discussion
fallback. -/
theorem title_bounded_cex :
    ¬ ∃ B : Nat, ∀ msgs : List ChatMsg,
        (∃ m ∈ msgs, m.role = Role.user ∧ m.content ≠ []) →
        (generateConversationTitle msgs).length ≤ B := by
  rintro ⟨B, hB⟩
  have hinput : ∃ m ∈ [exZMsg (B + 12)], m.role = Role.user ∧ m.content ≠ [] := by
    refine ⟨exZMsg (B + 12), List.mem_cons_self _ _, rfl, ?_⟩
    intro he
    have hl := congrArg List.length he
    rw [show (exZMsg (B + 12)).content = List.replicate (B + 12) 'z' from rfl,
      List.length_replicate] at hl
    simp at hl
  have hb := hB [exZMsg (B + 12)] hinput
  rw [title_z (by omega)] at hb
  rw [List.length_append, capitalize_length, List.length_replicate,
    show ("Discussion ".data).length = 11 from by decide] at hb
  omega

/-- C1 (amended): for a message list with at least one user message with
non-empty content, the title is a non-empty string whose length is at
most the maximum of 25 and 11 plus the length of the combined
lower-cased user text (the Discussion fallback is the only path that can
exceed 25). -/
theorem title_nonempty_bounded (msgs : List ChatMsg)
    (h : ∃ m ∈ msgs, m.role = Role.user ∧ m.content ≠ []) :
    generateConversationTitle msgs ≠ [] ∧
    (generateConversationTitle msgs).length
      ≤ max 25 (11 + (allUserText msgs).length) := by
  unfold generateConversationTitle
  by_cases h0 : (msgs.filter (fun m => m.role == Role.user)).length = 0
  · rw [if_pos h0]
    exact ⟨by decide, le_max_of_le_left (by decide)⟩
  · rw [if_neg h0]
    rcases createTitleFromTopics_cases (extractTopics (allUserText msgs))
        (allUserText msgs) with ⟨hne, hb | ⟨t, htop, htl, heq⟩⟩
    · exact ⟨hne, le_max_of_le_left hb⟩
    · refine ⟨hne, ?_⟩
      rw [heq]
      have hmem : t ∈ extractTopics (allUserText msgs) := by
        rw [htop]
        exact List.mem_cons_self _ _
      have hlen : t.length ≤ (allUserText msgs).length := mem_extractTopics_length hmem
      rw [List.length_append, capitalize_length,
        show ("Discussion ".data).length = 11 from by decide]
      exact le_max_of_le_right (by omega)

theorem title_nonempty_bounded_w :
    (∃ m ∈ [exUserMsg], m.role = Role.user ∧ m.content ≠ []) ∧
    generateConversationTitle [exUserMsg] ≠ [] ∧
    (generateConversationTitle [exUserMsg]).length
      ≤ max 25 (11 + (allUserText [exUserMsg]).length) :=
  ⟨by decide, title_nonempty_bounded [exUserMsg] (by decide)⟩

theorem bump_not_mem {acc : List (Str × Nat)} {w : Str}
    (h : ¬ w ∈ acc.map Prod.fst) : bump acc w = acc ++ [(w, 1)] := by
  induction acc with
  | nil => rfl
  | cons hd tl ih =>
    have hk : ¬ hd.1 = w := fun he => h (by rw [List.map_cons, he]; exact List.mem_cons_self _ _)
    have ht : ¬ w ∈ tl.map Prod.fst :=
      fun hm => h (by rw [List.map_cons]; exact List.mem_cons_of_mem _ hm)
    obtain ⟨k, n⟩ := hd
    rw [show bump ((k, n) :: tl) w = (k, n) :: bump tl w by simp [bump, hk]]
    rw [ih ht]
    rfl

theorem map_bumpFn_not_mem {l : List (Str × Nat)} {w : Str}
    (h : ¬ w ∈ l.map Prod.fst) :
    l.map (fun p => if p.1 = w then (p.1, p.2 + 1) else p) = l := by
  induction l with
  | nil => rfl
  | cons hd tl ih =>
    have hk : ¬ hd.1 = w := fun he => h (by rw [List.map_cons, he]; exact List.mem_cons_self _ _)
    have ht : ¬ w ∈ tl.map Prod.fst :=
      fun hm => h (by rw [List.map_cons]; exact List.mem_cons_of_mem _ hm)
    simp [hk, ih ht]

theorem bump_mem {l : List (Str × Nat)} {w : Str}
    (hnd : (l.map Prod.fst).Nodup) (h : w ∈ l.map Prod.fst) :
    bump l w = l.map (fun p => if p.1 = w then (p.1, p.2 + 1) else p) := by
  induction l with
  | nil => cases h
  | cons hd tl ih =>
    obtain ⟨k, n⟩ := hd
    rw [List.map_cons] at hnd h
    by_cases hk : k = w
    · rw [show bump ((k, n) :: tl) w = (k, n + 1) :: tl by simp [bump, hk]]
      have htl : ¬ w ∈ tl.map Prod.fst :=
        fun hm => (List.nodup_cons.mp hnd).1 (hk ▸ hm)
      simp [hk, map_bumpFn_not_mem htl]
    · rw [show bump ((k, n) :: tl) w = (k, n) :: bump tl w by simp [bump, hk]]
      have hw : w ∈ tl.map Prod.fst := by
        rcases List.mem_cons.mp h with he | hm
        · exact absurd he.symm hk
        · exact hm
      simp [hk, ih (List.nodup_cons.mp hnd).2 hw]

theorem bump_keys_mem {l : List (Str × Nat)} {w : Str}
    (hnd : (l.map Prod.fst).Nodup) (h : w ∈ l.map Prod.fst) :
    (bump l w).map Prod.fst = l.map Prod.fst := by
  rw [bump_mem hnd h, List.map_map]
  refine List.map_congr_left ?_
  intro p _
  by_cases hp : p.1 = w <;> simp [hp]

theorem firstOccurrencesAux_congr (s1 s2 l : List Str)
    (h : ∀ x, x ∈ s1 ↔ x ∈ s2) :
    firstOccurrencesAux s1 l = firstOccurrencesAux s2 l := by
  induction l generalizing s1 s2 with
  | nil => rfl
  | cons x xs ih =>
    by_cases hx : x ∈ s1
    · rw [show firstOccurrencesAux s1 (x :: xs) = firstOccurrencesAux s1 xs by
          simp [firstOccurrencesAux, hx]]
      rw [show firstOccurrencesAux s2 (x :: xs) = firstOccurrencesAux s2 xs by
          simp [firstOccurrencesAux, (h x).mp hx]]
      exact ih s1 s2 h
    · have hx2 : ¬ x ∈ s2 := fun hm => hx ((h x).mpr hm)
      rw [show firstOccurrencesAux s1 (x :: xs) = x :: firstOccurrencesAux (x :: s1) xs by
          simp [firstOccurrencesAux, hx]]
      rw [show firstOccurrencesAux s2 (x :: xs) = x :: firstOccurrencesAux (x :: s2) xs by
          simp [firstOccurrencesAux, hx2]]
      rw [ih (x :: s1) (x :: s2) (fun y => by simp [List.mem_cons, h y])]

theorem mem_firstOccurrencesAux {seen l : List Str} {x : Str}
    (h : x ∈ firstOccurrencesAux seen l) : ¬ x ∈ seen ∧ x ∈ l := by
  induction l generalizing seen with
  | nil => cases h
  | cons y ys ih =>
    by_cases hy : y ∈ seen
    · rw [show firstOccurrencesAux seen (y :: ys) = firstOccurrencesAux seen ys by
          simp [firstOccurrencesAux, hy]] at h
      exact ⟨(ih h).1, List.mem_cons_of_mem _ (ih h).2⟩
    · rw [show firstOccurrencesAux seen (y :: ys)
          = y :: firstOccurrencesAux (y :: seen) ys by simp [firstOccurrencesAux, hy]] at h
      rcases List.mem_cons.mp h with rfl | h2
      · exact ⟨hy, List.mem_cons_self _ _⟩
      · have hx := ih h2
        exact ⟨fun hm => hx.1 (List.mem_cons_of_mem _ hm), List.mem_cons_of_mem _ hx.2⟩

theorem foldl_bump_spec (ws : List Str) :
    ∀ acc : List (Str × Nat), (acc.map Prod.fst).Nodup →
      ws.foldl bump acc
        = acc.map (fun p => (p.1, p.2 + ws.count p.1))
          ++ (firstOccurrencesAux (acc.map Prod.fst) ws).map
              (fun w => (w, ws.count w)) := by
  induction ws with
  | nil =>
    intro acc hnd
    simp [firstOccurrencesAux]
  | cons w rest ih =>
    intro acc hnd
    rw [List.foldl_cons]
    by_cases hw : w ∈ acc.map Prod.fst
    · have hnd2 : ((bump acc w).map Prod.fst).Nodup := by
        rw [bump_keys_mem hnd hw]
        exact hnd
      rw [ih (bump acc w) hnd2, bump_keys_mem hnd hw]
      rw [show firstOccurrencesAux (acc.map Prod.fst) (w :: rest)
          = firstOccurrencesAux (acc.map Prod.fst) rest by simp [firstOccurrencesAux, hw]]
      congr 1
      · rw [bump_mem hnd hw, List.map_map]
        refine List.map_congr_left ?_
        intro p _
        by_cases hp : p.1 = w
        · simp only [Function.comp_apply, hp, if_pos]
          rw [List.count_cons_self]
          simp only [Prod.mk.injEq, true_and]
          omega
        · simp only [Function.comp_apply, if_neg hp]
          rw [List.count_cons_of_ne hp]
      · refine List.map_congr_left ?_
        intro x hx
        have hne : ¬ x = w := fun he => (mem_firstOccurrencesAux hx).1 (he ▸ hw)
        rw [List.count_cons_of_ne hne]
    · have hkeys : ((acc ++ [(w, 1)]).map Prod.fst) = acc.map Prod.fst ++ [w] := by
        rw [List.map_append]
        rfl
      have hnd2 : (((acc ++ [(w, 1)]).map Prod.fst)).Nodup := by
        rw [hkeys]
        refine List.Nodup.append hnd (List.nodup_singleton w) ?_
        intro a ha hb
        rw [List.mem_singleton] at hb
        exact hw (hb ▸ ha)
      rw [bump_not_mem hw, ih (acc ++ [(w, 1)]) hnd2, hkeys]
      rw [firstOccurrencesAux_congr (acc.map Prod.fst ++ [w]) (w :: acc.map Prod.fst)
          rest (fun x => by simp [List.mem_append, List.mem_cons, or_comm])]
      rw [show firstOccurrencesAux (acc.map Prod.fst) (w :: rest)
          = w :: firstOccurrencesAux (w :: acc.map Prod.fst) rest by
            simp [firstOccurrencesAux, hw]]
      simp only [List.map_append, List.map_cons, List.map_nil, List.append_assoc,
        List.cons_append, List.nil_append]
      congr 1
      · refine List.map_congr_left ?_
        intro p hp
        have hne : ¬ p.1 = w :=
          fun he => hw (he ▸ List.mem_map_of_mem Prod.fst hp)
        rw [List.count_cons_of_ne hne]
      · congr 1
        · show (w, 1 + List.count w rest) = (w, List.count w (w :: rest))
          rw [List.count_cons_self]
          simp only [Prod.mk.injEq, true_and]
          omega
        · refine List.map_congr_left ?_
          intro x hx
          have hne : ¬ x = w := fun he =>
            (mem_firstOccurrencesAux hx).1 (he ▸ List.mem_cons_self _ _)
          rw [List.count_cons_of_ne hne]

theorem countWords_eq_firstOccurrences (ws : List Str) :
    countWords ws = (firstOccurrences ws).map (fun w => (w, ws.count w)) := by
  have h := foldl_bump_spec ws [] (by simp)
  simpa [countWords, firstOccurrences] using h

theorem extractTopics_eq_specRanked (text : Str) :
    extractTopics text = specRankedTopics text := by
  unfold extractTopics specRankedTopics
  rw [countWords_eq_firstOccurrences]

theorem createTitle_eq_specAmended (topics : List Str) (fullText : Str) :
    createTitleFromTopics topics fullText = specCreateTitleAmended topics fullText := rfl

/-- C5 counterexample: the claimed description of the fallback fails on
the code — for a single-topic input the code returns the Discussion
title, not the top frequent tokens joined as a title. -/
theorem title_spec_claimed_cex :
    generateConversationTitle [exGirafeMsg] ≠ specTitleClaimed [exGirafeMsg] := by
  decide

/-- C5 (amended): the title heuristic tokenizes the concatenated
lower-cased user messages, strips the stop-word list and non-letter
tokens, ranks the remaining tokens by descending frequency keeping the
top 8, returns the label of the first rule whose keyword occurs in the
full text (extended with up to two context tokens), and otherwise falls
back to the top three topics capitalized and joined (truncated to 25)
when at least two topics remain, to the Discussion title when exactly
one topic longer than 3 characters remains, and to the default label
otherwise. -/
theorem title_matches_spec_pipeline (msgs : List ChatMsg) :
    generateConversationTitle msgs = specTitleAmended msgs := by
  unfold generateConversationTitle specTitleAmended
  rw [show (userContents msgs).length
      = (msgs.filter (fun m => m.role == Role.user)).length from by simp [userContents]]
  rw [← extractTopics_eq_specRanked]
  rw [createTitle_eq_specAmended]

end ProfVirtuel
